import Mathlib

/-!
Shallow embedding of the `agritech_hackathon` repository:
  * `app-final.py` — a Flask app with two routes (`GET /` and `POST /upload`);
  * `tensorflow_examples/.../data_util/dataloader.py` — `DataLoader` and
    `ClassificationDataLoader`;
  * `tensorflow_examples/.../task/model_spec/__init__.py` — the model-spec
    registry `MODEL_SPECS` and `get`.

Python strings/bytes are modelled as `List Char`; floating-point scores as
`Rat` (the claims under scrutiny are order/filter properties, exact in any
ordered field); `tf.data.Dataset` as a deep embedding `DS` of the dataset
combinators the repository calls, so that "which API calls in which order"
is a provable statement.
-/

/-- Python strings (and byte strings) are modelled as lists of characters. -/
abbrev PyStr := List Char

/-- The characters Python's `str.rstrip()` strips by default
(`str.isspace` whitespace, restricted to the ASCII ones that can occur in a
label file): space, tab, newline, carriage return, vertical tab, form feed. -/
def pyIsSpace (c : Char) : Bool :=
  c = ' ' || c = '\t' || c = '\n' || c = '\r' || c = '\x0b' || c = '\x0c'

/-- Python `s.rstrip()`: remove trailing whitespace characters. -/
def rstrip (s : PyStr) : PyStr :=
  (s.reverse.dropWhile pyIsSpace).reverse

/-- Helper for `pyFileLines`: scan the remaining characters, keeping the
characters of the current (reversed) partial line in `acc`. -/
def pyFileLinesAux : PyStr → PyStr → List PyStr
  | [], [] => []
  | [], acc => [acc.reverse]
  | c :: rest, acc =>
    if c = '\n' then (acc.reverse ++ ['\n']) :: pyFileLinesAux rest []
    else pyFileLinesAux rest (c :: acc)

/-- Iterating a Python text file yields its lines, each line keeping its
trailing `'\n'` (the final line has none when the file does not end in a
newline).  This models `for line in tf.gfile.GFile("retrained_labels.txt")`. -/
def pyFileLines (s : PyStr) : List PyStr := pyFileLinesAux s []

/-- The label list built by the upload handler of `app-final.py`:
`label_lines = [line.rstrip() for line in tf.gfile.GFile("retrained_labels.txt")]`. -/
def labelList (content : PyStr) : List PyStr :=
  (pyFileLines content).map rstrip

/-! ## The Flask app (`app-final.py`) -/

/-- One entry of `request.files.getlist("file")`: a filename and its bytes. -/
structure UploadedFile where
  filename : PyStr
  content : PyStr
deriving DecidableEq

/-- The value returned by a route handler: `render_template(t)` or
`render_template(t, name=…, scores=…)`. -/
inductive Response where
  | html : String → Response
  | htmlWith : String → List PyStr → List Rat → Response
deriving DecidableEq

/-- Python exceptions the handler can raise (all uncaught: `app-final.py`
contains no `try`/`except`). -/
inductive PyError where
  | nameError : PyError
  | fileNotFound : String → PyError
  | indexError : PyError
deriving DecidableEq

/-- The request/deployment environment seen by one call of `upload`:
the app root directory, whether `images/` already exists, the multipart
files of the request, the contents of `retrained_labels.txt` and
`retrained_graph.pb` when present, and the softmax vector the frozen graph
produces for given image bytes (`sess.run` on `final_result:0`, first row). -/
structure Env where
  appRoot : PyStr
  imagesDirExists : Bool
  files : List UploadedFile
  labelsFile : Option PyStr
  graphFile : Option PyStr
  predict : PyStr → List Rat

/-- `target = os.path.join(APP_ROOT, 'images/')`. -/
def targetDir (env : Env) : PyStr := env.appRoot ++ ("/images/".toList)

/-- `destination = "/".join([target, filename])`. -/
def destinationFor (env : Env) (f : UploadedFile) : PyStr :=
  targetDir env ++ ('/' :: f.filename)

/-- `predictions[0].argsort()`: the indices of `p` sorted so the scores are
ascending (numpy's `argsort` fixes only value order; a stable sort is one
admissible model). -/
def argsortAsc (p : List Rat) : List Nat :=
  List.insertionSort (fun i j => p.getD i 0 ≤ p.getD j 0) (List.range p.length)

/-- `top_k = predictions[0].argsort()[-len(predictions[0]):][::-1]`:
the slice `[-len:]` of the full argsort is the whole list, and `[::-1]`
reverses it, giving score-descending index order. -/
def topK (p : List Rat) : List Nat := (argsortAsc p).reverse

/-- The result-collecting loop of `upload`, one recursion step per
`node_id in top_k`: fetch `human_string = label_lines[node_id]` (an
out-of-range index raises `IndexError`, modelled by `none`), compute
`score = predictions[0][node_id] * 100`, and append the pair when
`score > 20`. -/
def classifyLoop (p : List Rat) (labels : List PyStr) :
    List Nat → Option (List PyStr × List Rat)
  | [] => some ([], [])
  | nodeId :: rest =>
    match labels[nodeId]? with
    | none => none
    | some human =>
      let score : Rat := p.getD nodeId 0 * 100
      match classifyLoop p labels rest with
      | none => none
      | some (ns, ss) =>
        if score > 20 then some (human :: ns, score :: ss) else some (ns, ss)

/-- The whole `name`/`scores` computation of the handler for a softmax
vector `p` and label list `labels`. -/
def classify (p : List Rat) (labels : List PyStr) :
    Option (List PyStr × List Rat) :=
  classifyLoop p labels (topK p)

/-- Spec-side description of the classifier output (written from the
claim's words, to be compared with `classify`): the pairs
`(labels[j], p[j] * 100)` for exactly the indices `j` of `p` whose score
exceeds 20, taken from the index list `ids`. -/
def selectedOver (p : List Rat) (labels : List PyStr) (ids : List Nat) :
    List (PyStr × Rat) :=
  (ids.filter (fun j => decide (p.getD j 0 * 100 > 20))).map
    (fun j => (labels.getD j [], p.getD j 0 * 100))

/-- Spec-side description over all indices of `p`, in index order. -/
def selectedPairs (p : List Rat) (labels : List PyStr) :
    List (PyStr × Rat) :=
  selectedOver p labels (List.range p.length)

/-- What one call of the `upload` handler did: whether it created `images/`,
the `(destination, bytes)` writes it performed (in order), and the value it
returned — a rendered page or an uncaught exception. -/
structure UploadResult where
  createdDir : Bool
  saved : List (PyStr × PyStr)
  response : Except PyError Response

/-- The `POST /upload` handler of `app-final.py`, line by line:
make `images/` when missing; save every file of
`request.files.getlist("file")` to `"/".join([target, filename])`;
`img = destination` (a `NameError` when the loop body never ran);
read the saved image back; read and `rstrip` the label lines
(`FileNotFoundError` when `retrained_labels.txt` is absent); load the graph
(`FileNotFoundError` when `retrained_graph.pb` is absent); run the softmax;
collect `name`/`scores` over `top_k`; render `complete.html`. -/
def upload (env : Env) : UploadResult :=
  let createdDir := !env.imagesDirExists
  let saved := env.files.map (fun f => (destinationFor env f, f.content))
  match env.files.getLast? with
  | none => ⟨createdDir, saved, .error .nameError⟩
  | some lastFile =>
    let image_data := lastFile.content
    match env.labelsFile with
    | none => ⟨createdDir, saved, .error (.fileNotFound "retrained_labels.txt")⟩
    | some labelsContent =>
      let label_lines := labelList labelsContent
      match env.graphFile with
      | none => ⟨createdDir, saved, .error (.fileNotFound "retrained_graph.pb")⟩
      | some _graph =>
        let predictions := env.predict image_data
        match classify predictions label_lines with
        | none => ⟨createdDir, saved, .error .indexError⟩
        | some (name, scores) =>
          ⟨createdDir, saved, .ok (.htmlWith "complete.html" name scores)⟩

/-- The `GET /` handler: `return render_template("upload.html")`. -/
def index : Response := .html "upload.html"

/-- HTTP methods used by the app's route decorators. -/
inductive Method where
  | GET : Method
  | POST : Method
deriving DecidableEq

/-- The route table registered by the two `@app.route` decorators of
`app-final.py` — the only routes the app exposes. -/
def appRoutes : List (String × Method) :=
  [("/", Method.GET), ("/upload", Method.POST)]

/-- A concrete deployment/request environment used to evaluate the handler
theorems: one uploaded file, both artifacts present, a two-class model. -/
def envDemo : Env :=
  ⟨"/app".toList, true,
   [⟨"leaf.jpg".toList, "JPG".toList⟩],
   some ("healthy\nblight\n".toList),
   some ("GRAPH".toList),
   fun _ => [7/10, 3/10]⟩

/-! ## The model-spec registry (`task/model_spec/__init__.py`) -/

namespace ModelSpec

/-- Modelled from the spec: the `image_spec`/`text_spec` modules the
registry imports are not part of this repository's sources; the spec
describes the dictionary values as "model-specification constructors from
an external model-maker library".  A Python value is therefore either a
string, a constructor (a class or a function — `get` treats the two
alike), or a plain non-callable object such as an already-built spec
instance. -/
inductive PyVal where
  | str : String → PyVal
  | constructorFn : String → PyVal
  | instanceVal : String → PyVal
deriving DecidableEq

/-- `isinstance(v, str)`. -/
def pyIsStr : PyVal → Bool
  | .str _ => true
  | _ => false

/-- `inspect.isclass(v) or inspect.isfunction(v)`. -/
def pyIsClassOrFunction : PyVal → Bool
  | .constructorFn _ => true
  | _ => false

/-- Calling a constructor with no arguments yields a spec instance
(modelled from the spec: the constructors build model specifications). -/
def pyCall0 : PyVal → PyVal
  | .constructorFn n => .instanceVal n
  | v => v

/-- The `MODEL_SPECS` dictionary of `model_spec/__init__.py`, key for key.
The values (`efficientnet_lite0_spec`, …) come from the absent
`image_spec`/`text_spec` modules and are modelled as constructors. -/
def MODEL_SPECS : List (String × PyVal) :=
  [("efficientnet_lite0", .constructorFn "efficientnet_lite0_spec"),
   ("efficientnet_lite1", .constructorFn "efficientnet_lite1_spec"),
   ("efficientnet_lite2", .constructorFn "efficientnet_lite2_spec"),
   ("efficientnet_lite3", .constructorFn "efficientnet_lite3_spec"),
   ("efficientnet_lite4", .constructorFn "efficientnet_lite4_spec"),
   ("mobilenet_v2", .constructorFn "mobilenet_v2_spec"),
   ("resnet_50", .constructorFn "resnet_50_spec"),
   ("average_word_vec", .constructorFn "average_word_vec_spec"),
   ("bert", .constructorFn "bert_spec"),
   ("bert_classifier", .constructorFn "bert_classifier_spec"),
   ("bert_qa", .constructorFn "bert_qa_spec"),
   ("mobilebert_classifier", .constructorFn "mobilebert_classifier_spec"),
   ("mobilebert_qa", .constructorFn "mobilebert_qa_spec"),
   ("mobilebert_qa_squad", .constructorFn "mobilebert_qa_squad_spec")]

/-- `IMAGE_CLASSIFICATION_MODELS`. -/
def IMAGE_CLASSIFICATION_MODELS : List String :=
  ["efficientnet_lite0", "efficientnet_lite1", "efficientnet_lite2",
   "efficientnet_lite3", "efficientnet_lite4", "mobilenet_v2", "resnet_50"]

/-- `TEXT_CLASSIFICATION_MODELS`. -/
def TEXT_CLASSIFICATION_MODELS : List String :=
  ["bert_classifier", "average_word_vec", "mobilebert_classifier"]

/-- `QUESTION_ANSWERING_MODELS`. -/
def QUESTION_ANSWERING_MODELS : List String :=
  ["bert_qa", "mobilebert_qa", "mobilebert_qa_squad"]

/-- Python dictionary subscription `d[k]` on an association list (Python
dict keys here are all distinct, so first-match lookup is the dict). -/
def dictGet (d : List (String × PyVal)) (k : String) : Option PyVal :=
  match d with
  | [] => none
  | (key, v) :: rest => if k = key then some v else dictGet rest k

/-- A `KeyError` carrying the missing key. -/
inductive GetError where
  | keyError : String → GetError
deriving DecidableEq

/-- The `get` function of `model_spec/__init__.py`: resolve a string
through `MODEL_SPECS` (raising `KeyError` when absent), pass anything else
through, then call the result with no arguments when it is a class or a
function. -/
def get (spec_or_str : PyVal) : Except GetError PyVal :=
  match (match spec_or_str with
         | .str s =>
           match dictGet MODEL_SPECS s with
           | some v => Except.ok v
           | none => Except.error (GetError.keyError s)
         | v => Except.ok v : Except GetError PyVal) with
  | .error e => .error e
  | .ok model_spec =>
    if pyIsClassOrFunction model_spec then .ok (pyCall0 model_spec)
    else .ok model_spec

end ModelSpec

/-! ## The dataset wrapper (`data_util/dataloader.py`) -/

/-- Deep embedding of the `tf.data.Dataset` combinators the repository
calls.  `gen_dataset`, `_shard` and `_split` only build such pipelines and
hand them to the framework, so "which calls, in which order" is exactly the
shape of this term.  `repeatD` stands for `ds.repeat()` (`repeat` is a Lean
keyword); `map` carries the preprocess function, `shuffle` its buffer size,
`shard` the pipeline count and id, `batch` the batch size. -/
inductive DS (α : Type) where
  | source : List α → DS α
  | take : DS α → Nat → DS α
  | skip : DS α → Nat → DS α
  | shard : DS α → Nat → Nat → DS α
  | map : DS α → (α → α) → DS α
  | shuffle : DS α → Nat → DS α
  | repeatD : DS α → DS α
  | batch : DS α → Nat → DS α
  | prefetch : DS α → DS α

/-- `tf.distribute.InputContext`: the two attributes `_shard` reads. -/
structure IPC where
  num_input_pipelines : Nat
  input_pipeline_id : Nat

/-- The module-level `_shard` of `dataloader.py`: shard only when a context
is supplied (`None` is falsy) and it has more than one input pipeline. -/
def dsShard (ds : DS α) (input_pipeline_context : Option IPC) : DS α :=
  match input_pipeline_context with
  | none => ds
  | some ctx =>
    if ctx.num_input_pipelines > 1 then
      DS.shard ds ctx.num_input_pipelines ctx.input_pipeline_id
    else ds

/-- The `DataLoader` class: a dataset handle plus its (separately stored)
integer size. -/
structure DataLoader (α : Type) where
  _dataset : DS α
  _size : Nat

/-- `DataLoader.__len__`. -/
def DataLoader.lenPy (dl : DataLoader α) : Nat := dl._size

/-- `DataLoader.gen_dataset(batch_size, is_training, shuffle,
input_pipeline_context, preprocess)`: shard, then map the preprocess
function when given, then (training only) shuffle with buffer
`min(size, 3 * batch_size)` when requested and repeat, then batch, then
prefetch. -/
def DataLoader.gen_dataset (dl : DataLoader α) (batch_size : Nat)
    (is_training : Bool) (shuffle : Bool)
    (input_pipeline_context : Option IPC) (preprocess : Option (α → α)) :
    DS α :=
  let ds := dl._dataset
  let ds := dsShard ds input_pipeline_context
  let ds := match preprocess with
            | some f => DS.map ds f
            | none => ds
  let ds := if is_training then
              let ds := if shuffle then
                          let buffer_size := 3 * batch_size
                          DS.shuffle ds (min dl._size buffer_size)
                        else ds
              DS.repeatD ds
            else ds
  let ds := DS.batch ds batch_size
  DS.prefetch ds

/-- `DataLoader._split(fraction, *args)`, generic over the constructor the
Python code reaches through `self.__class__` (the `*args` are baked into
`mk`): assert `0 < fraction < 1` (`none` models the `AssertionError`),
`train_size = int(self._size * fraction)` (truncation of a non-negative
float, i.e. the floor), then build the two sub-loaders from
`ds.take(train_size)` and `ds.skip(train_size)`. -/
def splitGeneric {α L : Type} (mk : DS α → Nat → L) (ds : DS α) (size : Nat)
    (fraction : Rat) : Option (L × L) :=
  if 0 < fraction ∧ fraction < 1 then
    let train_size : Nat := (⌊(size : Rat) * fraction⌋).toNat
    let trainset := mk (DS.take ds train_size) train_size
    let test_size := size - train_size
    let testset := mk (DS.skip ds train_size) test_size
    some (trainset, testset)
  else none

/-- `DataLoader._split(fraction)` with no extra constructor arguments. -/
def DataLoader._split (dl : DataLoader α) (fraction : Rat) :
    Option (DataLoader α × DataLoader α) :=
  splitGeneric DataLoader.mk dl._dataset dl._size fraction

/-- `DataLoader.split(fraction)` just forwards to `_split`. -/
def DataLoader.split (dl : DataLoader α) (fraction : Rat) :
    Option (DataLoader α × DataLoader α) :=
  dl._split fraction

/-- State-passing form of `DataLoader.split`: the Python body contains no
assignment to `self._dataset` or `self._size`, so the method leaves `self`
exactly as it was and only returns the two freshly constructed loaders. -/
def DataLoader.splitS (dl : DataLoader α) (fraction : Rat) :
    DataLoader α × Option (DataLoader α × DataLoader α) :=
  (dl, dl.split fraction)

/-- State-passing form of `DataLoader.gen_dataset`: likewise free of
assignments to `self`. -/
def DataLoader.gen_datasetS (dl : DataLoader α) (batch_size : Nat)
    (is_training : Bool) (shuffle : Bool)
    (input_pipeline_context : Option IPC) (preprocess : Option (α → α)) :
    DataLoader α × DS α :=
  (dl, dl.gen_dataset batch_size is_training shuffle input_pipeline_context
        preprocess)

/-- The `ClassificationDataLoader` subclass: a `DataLoader` plus the
`index_to_label` list. -/
structure ClassificationDataLoader (α β : Type) where
  _dataset : DS α
  _size : Nat
  index_to_label : List β

/-- `ClassificationDataLoader.num_classes`. -/
def ClassificationDataLoader.num_classes
    (dl : ClassificationDataLoader α β) : Nat :=
  dl.index_to_label.length

/-- `ClassificationDataLoader.split(fraction)`:
`self._split(fraction, self.index_to_label)` — the generic `_split` with
`self.__class__` receiving `index_to_label` as the extra argument. -/
def ClassificationDataLoader.split (dl : ClassificationDataLoader α β)
    (fraction : Rat) :
    Option (ClassificationDataLoader α β × ClassificationDataLoader α β) :=
  splitGeneric (fun d n => ⟨d, n, dl.index_to_label⟩) dl._dataset dl._size
    fraction

/-! ## Helper lemmas -/

/-- A key absent from the key column makes `dictGet` miss. -/
theorem ModelSpec.dictGet_eq_none (d : List (String × ModelSpec.PyVal))
    (k : String) (h : k ∉ d.map Prod.fst) : ModelSpec.dictGet d k = none := by
  induction d with
  | nil => rfl
  | cons kv rest ih =>
    simp only [List.map_cons, List.mem_cons] at h
    push_neg at h
    simp [ModelSpec.dictGet, h.1, ih h.2]

/-- A key present in the key column makes `dictGet` hit. -/
theorem ModelSpec.dictGet_isSome (d : List (String × ModelSpec.PyVal))
    (k : String) (h : k ∈ d.map Prod.fst) :
    ∃ v, ModelSpec.dictGet d k = some v := by
  induction d with
  | nil => simp at h
  | cons kv rest ih =>
    by_cases hk : k = kv.1
    · exact ⟨kv.2, by simp [ModelSpec.dictGet, hk]⟩
    · simp only [List.map_cons, List.mem_cons] at h
      obtain ⟨v, hv⟩ := ih (h.resolve_left hk)
      exact ⟨v, by simp [ModelSpec.dictGet, hk, hv]⟩

/-- Adding one `take` layer changes the pipeline term. -/
theorem DS.take_ne (d : DS α) (k : Nat) : DS.take d k ≠ d := by
  intro h
  have hs := congrArg (sizeOf ·) h
  simp at hs
  omega

/-- Adding one `skip` layer changes the pipeline term. -/
theorem DS.skip_ne (d : DS α) (k : Nat) : DS.skip d k ≠ d := by
  intro h
  have hs := congrArg (sizeOf ·) h
  simp at hs
  omega

/-- `int(size * fraction)` never exceeds `size` when `fraction < 1`. -/
theorem trainSize_le (n : Nat) (f : Rat) (hf1 : f < 1) :
    (⌊(n : Rat) * f⌋).toNat ≤ n := by
  have h1 : (n : Rat) * f ≤ (n : Rat) := by
    calc (n : Rat) * f ≤ (n : Rat) * 1 :=
          mul_le_mul_of_nonneg_left (le_of_lt hf1) (by positivity)
      _ = (n : Rat) := mul_one _
  have h2 : ⌊(n : Rat) * f⌋ ≤ ⌊(n : Rat)⌋ := Int.floor_le_floor h1
  have h3 : ⌊(n : Rat)⌋ = (n : Int) := Int.floor_natCast n
  omega

/-! ## Claim C4 — the registry lookup `get` -/

/-- C4 counterexample: the key `"bert"` is in `MODEL_SPECS` but in none of
`IMAGE_CLASSIFICATION_MODELS`, `TEXT_CLASSIFICATION_MODELS`,
`QUESTION_ANSWERING_MODELS`, so the key set of `MODEL_SPECS` is not the
union of the three lists. -/
theorem modelSpecs_bert_not_in_union :
    "bert" ∈ ModelSpec.MODEL_SPECS.map Prod.fst ∧
    "bert" ∉ ModelSpec.IMAGE_CLASSIFICATION_MODELS ++
      ModelSpec.TEXT_CLASSIFICATION_MODELS ++
      ModelSpec.QUESTION_ANSWERING_MODELS := by
  constructor
  · simp [ModelSpec.MODEL_SPECS]
  · simp [ModelSpec.IMAGE_CLASSIFICATION_MODELS,
      ModelSpec.TEXT_CLASSIFICATION_MODELS,
      ModelSpec.QUESTION_ANSWERING_MODELS]

/-- C4 (amended): `get` is a dictionary-based registry lookup: a string key
of `MODEL_SPECS` resolves to its dictionary value, called with no arguments
first when it is a class or a function; a string outside the dictionary
raises `KeyError`; and the key set of `MODEL_SPECS` is the union of the
three model lists **plus the extra key `"bert"`**. -/
theorem get_registry_lookup :
    (∀ s, s ∈ ModelSpec.MODEL_SPECS.map Prod.fst →
      ∃ v, ModelSpec.dictGet ModelSpec.MODEL_SPECS s = some v ∧
        ModelSpec.get (.str s) =
          .ok (if ModelSpec.pyIsClassOrFunction v then ModelSpec.pyCall0 v
               else v)) ∧
    (∀ s, s ∉ ModelSpec.MODEL_SPECS.map Prod.fst →
      ModelSpec.get (.str s) = .error (.keyError s)) ∧
    (∀ s, s ∈ ModelSpec.MODEL_SPECS.map Prod.fst ↔
      (s ∈ ModelSpec.IMAGE_CLASSIFICATION_MODELS ++
        ModelSpec.TEXT_CLASSIFICATION_MODELS ++
        ModelSpec.QUESTION_ANSWERING_MODELS ∨ s = "bert")) := by
  refine ⟨?_, ?_, ?_⟩
  · intro s hs
    obtain ⟨v, hv⟩ := ModelSpec.dictGet_isSome _ s hs
    refine ⟨v, hv, ?_⟩
    simp only [ModelSpec.get, hv]
    split <;> rfl
  · intro s hs
    have hv := ModelSpec.dictGet_eq_none _ s hs
    simp [ModelSpec.get, hv]
  · intro s
    simp only [ModelSpec.MODEL_SPECS, ModelSpec.IMAGE_CLASSIFICATION_MODELS,
      ModelSpec.TEXT_CLASSIFICATION_MODELS,
      ModelSpec.QUESTION_ANSWERING_MODELS, List.map_cons, List.map_nil,
      List.mem_cons, List.mem_append, List.not_mem_nil, or_false]
    tauto

/-- C4 witness: the amended theorem evaluated at the key `"bert"` and at a
string outside the registry. -/
theorem get_registry_lookup_witness :
    (∃ v, ModelSpec.dictGet ModelSpec.MODEL_SPECS "bert" = some v ∧
      ModelSpec.get (.str "bert") =
        .ok (if ModelSpec.pyIsClassOrFunction v then ModelSpec.pyCall0 v
             else v)) ∧
    ModelSpec.get (.str "no_such_model") =
      .error (.keyError "no_such_model") ∧
    ("bert" ∈ ModelSpec.MODEL_SPECS.map Prod.fst ↔
      ("bert" ∈ ModelSpec.IMAGE_CLASSIFICATION_MODELS ++
        ModelSpec.TEXT_CLASSIFICATION_MODELS ++
        ModelSpec.QUESTION_ANSWERING_MODELS ∨ "bert" = "bert")) :=
  ⟨get_registry_lookup.1 "bert" (by decide),
   get_registry_lookup.2.1 "no_such_model" (by decide),
   get_registry_lookup.2.2 "bert"⟩

/-! ## Claim C10 — `get` on non-string, non-callable values -/

/-- C10: a value that is neither a string nor a class/function passes
through `get` unchanged, and `get` is therefore idempotent on it. -/
theorem get_identity_on_plain_values (v : ModelSpec.PyVal)
    (hs : ModelSpec.pyIsStr v = false)
    (hc : ModelSpec.pyIsClassOrFunction v = false) :
    ModelSpec.get v = .ok v ∧
    (ModelSpec.get v).bind ModelSpec.get = ModelSpec.get v := by
  have h1 : ModelSpec.get v = .ok v := by
    cases v with
    | str s => simp [ModelSpec.pyIsStr] at hs
    | constructorFn n => simp [ModelSpec.pyIsClassOrFunction] at hc
    | instanceVal n => simp [ModelSpec.get, ModelSpec.pyIsClassOrFunction]
  refine ⟨h1, ?_⟩
  rw [h1]
  simpa [Except.bind] using h1

/-- C10 witness: a prebuilt spec instance is returned unchanged and
`get` is idempotent on it. -/
theorem get_identity_on_plain_values_witness :
    ModelSpec.get (.instanceVal "prebuilt_spec") =
      .ok (.instanceVal "prebuilt_spec") ∧
    (ModelSpec.get (.instanceVal "prebuilt_spec")).bind ModelSpec.get =
      ModelSpec.get (.instanceVal "prebuilt_spec") :=
  get_identity_on_plain_values (.instanceVal "prebuilt_spec") rfl rfl

/-! ## Claim C5 — `DataLoader.split` sizes -/

/-- C5: `split(f)` asserts `0 < f < 1` (an `AssertionError` otherwise) and
then returns sub-loaders of sizes `int(n * f)` (the floor) and
`n - int(n * f)`, summing to `n`; the first takes, the second skips, the
first `int(n * f)` elements. -/
theorem split_fraction_behavior {α : Type} (dl : DataLoader α) (f : Rat) :
    (¬(0 < f ∧ f < 1) → dl.split f = none) ∧
    ((0 < f ∧ f < 1) →
      ∃ a b, dl.split f = some (a, b) ∧
        a._size = (⌊(dl._size : Rat) * f⌋).toNat ∧
        b._size = dl._size - a._size ∧
        a._size + b._size = dl._size ∧
        a._dataset = DS.take dl._dataset a._size ∧
        b._dataset = DS.skip dl._dataset a._size) := by
  constructor
  · intro h
    simp [DataLoader.split, DataLoader._split, splitGeneric, h]
  · intro h
    refine ⟨⟨DS.take dl._dataset ((⌊(dl._size : Rat) * f⌋).toNat),
              (⌊(dl._size : Rat) * f⌋).toNat⟩,
            ⟨DS.skip dl._dataset ((⌊(dl._size : Rat) * f⌋).toNat),
              dl._size - (⌊(dl._size : Rat) * f⌋).toNat⟩,
            ?_, rfl, rfl, ?_, rfl, rfl⟩
    · simp [DataLoader.split, DataLoader._split, splitGeneric, h.1, h.2]
    · have := trainSize_le dl._size f h.2
      show (⌊(dl._size : Rat) * f⌋).toNat +
        (dl._size - (⌊(dl._size : Rat) * f⌋).toNat) = dl._size
      omega

/-- C5 witness: a three-element loader split at one half gives sizes 1 and
2. -/
theorem split_fraction_behavior_witness :
    ∃ a b,
      (DataLoader.mk (DS.source ([0, 1, 2] : List Nat)) 3).split (1/2) =
        some (a, b) ∧
      a._size = (⌊(((3 : Nat) : Rat)) * (1/2)⌋).toNat ∧
      b._size = 3 - a._size ∧
      a._size + b._size = 3 ∧
      a._dataset = DS.take (DS.source [0, 1, 2]) a._size ∧
      b._dataset = DS.skip (DS.source [0, 1, 2]) a._size :=
  (split_fraction_behavior (DataLoader.mk (DS.source ([0, 1, 2] : List Nat)) 3)
    (1/2)).2 (by norm_num)

/-! ## Claim C6 — the `gen_dataset` pipeline -/

/-- C6: `gen_dataset` builds exactly this pipeline: shard only when a
context with more than one input pipeline is supplied, map only when a
preprocess function is given, shuffle only when both `is_training` and
`shuffle` hold (buffer `min(size, 3 * batch_size)`), repeat only when
`is_training`, and always batch with `batch_size` then prefetch — in that
order. -/
theorem gen_dataset_pipeline {α : Type} (dl : DataLoader α)
    (batch_size : Nat) (is_training shuffle : Bool) (ctx : Option IPC)
    (pre : Option (α → α)) :
    dl.gen_dataset batch_size is_training shuffle ctx pre =
      DS.prefetch (DS.batch
        (let sharded := match ctx with
                        | some c =>
                          if c.num_input_pipelines > 1 then
                            DS.shard dl._dataset c.num_input_pipelines
                              c.input_pipeline_id
                          else dl._dataset
                        | none => dl._dataset
         let mapped := match pre with
                       | some fp => DS.map sharded fp
                       | none => sharded
         let shuffled := if is_training && shuffle then
                           DS.shuffle mapped (min dl._size (3 * batch_size))
                         else mapped
         if is_training then DS.repeatD shuffled else shuffled)
        batch_size) := by
  cases ctx <;> cases pre <;> cases is_training <;> cases shuffle <;>
    simp [DataLoader.gen_dataset, dsShard]

/-! ## Claim C8 — `DataLoader` is a passive holder -/

/-- C8: a loader built from `(d, n)` has `len = n` and stores `d`; neither
`split` nor `gen_dataset` changes the receiver, and the loaders `split`
returns are new objects (their pipelines differ from the stored one). -/
theorem dataloader_passive {α : Type} (d : DS α) (n : Nat)
    (dl : DataLoader α) (f : Rat) (batch_size : Nat)
    (is_training shuffle : Bool) (ctx : Option IPC) (pre : Option (α → α)) :
    (DataLoader.mk d n).lenPy = n ∧
    (DataLoader.mk d n)._dataset = d ∧
    (dl.splitS f).1 = dl ∧
    (dl.gen_datasetS batch_size is_training shuffle ctx pre).1 = dl ∧
    (∀ a b, (dl.splitS f).2 = some (a, b) →
      a._dataset ≠ dl._dataset ∧ b._dataset ≠ dl._dataset) := by
  refine ⟨rfl, rfl, rfl, rfl, ?_⟩
  intro a b hab
  simp only [DataLoader.splitS, DataLoader.split, DataLoader._split,
    splitGeneric] at hab
  by_cases h : 0 < f ∧ f < 1
  · rw [if_pos h, Option.some.injEq, Prod.mk.injEq] at hab
    obtain ⟨ha, hb⟩ := hab
    constructor
    · rw [← ha]
      exact DS.take_ne dl._dataset _
    · rw [← hb]
      exact DS.skip_ne dl._dataset _
  · rw [if_neg h] at hab
    exact absurd hab (by simp)

/-- C8 witness: the passivity facts evaluated on a two-element loader split
at one half. -/
theorem dataloader_passive_witness :
    (DataLoader.mk (DS.source ([10, 20] : List Nat)) 2).lenPy = 2 ∧
    (DataLoader.mk (DS.source ([10, 20] : List Nat)) 2)._dataset =
      DS.source [10, 20] ∧
    ((DataLoader.mk (DS.source ([10, 20] : List Nat)) 2).splitS (1/2)).1 =
      DataLoader.mk (DS.source [10, 20]) 2 ∧
    ((DataLoader.mk (DS.source ([10, 20] : List Nat)) 2).gen_datasetS 1
      false false none none).1 = DataLoader.mk (DS.source [10, 20]) 2 ∧
    ((DataLoader.mk (DS.take (DS.source ([10, 20] : List Nat)) 1) 1)._dataset ≠
      (DataLoader.mk (DS.source ([10, 20] : List Nat)) 2)._dataset ∧
     (DataLoader.mk (DS.skip (DS.source ([10, 20] : List Nat)) 1) 1)._dataset ≠
      (DataLoader.mk (DS.source ([10, 20] : List Nat)) 2)._dataset) := by
  have h := dataloader_passive (DS.source ([10, 20] : List Nat)) 2
    (DataLoader.mk (DS.source [10, 20]) 2) (1/2) 1 false false none none
  have hab : ((DataLoader.mk (DS.source ([10, 20] : List Nat)) 2).splitS
      (1/2)).2 =
      some (DataLoader.mk (DS.take (DS.source [10, 20]) 1) 1,
            DataLoader.mk (DS.skip (DS.source [10, 20]) 1) 1) := by
    have h2 : ((2 : Nat) : Rat) * (1 / 2) = 1 := by norm_num
    simp [DataLoader.splitS, DataLoader.split, DataLoader._split,
      splitGeneric, h2]
    norm_num
  exact ⟨h.1, h.2.1, h.2.2.1, h.2.2.2.1, h.2.2.2.2 _ _ hab⟩

/-! ## Claim C9 — `ClassificationDataLoader.split` keeps the label map -/

/-- C9: both sub-loaders of a classification split carry the original
`index_to_label`, hence the same `num_classes`. -/
theorem classification_split_keeps_labels {α β : Type}
    (dl : ClassificationDataLoader α β) (f : Rat) (h : 0 < f ∧ f < 1) :
    ∃ a b, dl.split f = some (a, b) ∧
      a.index_to_label = dl.index_to_label ∧
      b.index_to_label = dl.index_to_label ∧
      a.num_classes = dl.num_classes ∧
      b.num_classes = dl.num_classes := by
  have hsplit : dl.split f =
      some (⟨DS.take dl._dataset ((⌊(dl._size : Rat) * f⌋).toNat),
              (⌊(dl._size : Rat) * f⌋).toNat, dl.index_to_label⟩,
            ⟨DS.skip dl._dataset ((⌊(dl._size : Rat) * f⌋).toNat),
              dl._size - (⌊(dl._size : Rat) * f⌋).toNat,
              dl.index_to_label⟩) := by
    simp [ClassificationDataLoader.split, splitGeneric, h.1, h.2]
  exact ⟨_, _, hsplit, rfl, rfl, rfl, rfl⟩

/-- C9 witness: a concrete classification loader with two labels split at
one half. -/
theorem classification_split_keeps_labels_witness :
    ∃ a b,
      (ClassificationDataLoader.mk (DS.source ([1, 2] : List Nat)) 2
        (["cat", "dog"] : List String)).split (1/2) = some (a, b) ∧
      a.index_to_label =
        (ClassificationDataLoader.mk (DS.source ([1, 2] : List Nat)) 2
          (["cat", "dog"] : List String)).index_to_label ∧
      b.index_to_label =
        (ClassificationDataLoader.mk (DS.source ([1, 2] : List Nat)) 2
          (["cat", "dog"] : List String)).index_to_label ∧
      a.num_classes =
        (ClassificationDataLoader.mk (DS.source ([1, 2] : List Nat)) 2
          (["cat", "dog"] : List String)).num_classes ∧
      b.num_classes =
        (ClassificationDataLoader.mk (DS.source ([1, 2] : List Nat)) 2
          (["cat", "dog"] : List String)).num_classes :=
  classification_split_keeps_labels
    (ClassificationDataLoader.mk (DS.source ([1, 2] : List Nat)) 2
      (["cat", "dog"] : List String)) (1/2) (by norm_num)

/-! ## Classifier lemmas -/

/-- The collection loop equals the spec-side selection over the same index
list, provided every index is within the label list. -/
theorem classifyLoop_eq (p : List Rat) (labels : List PyStr) (ids : List Nat)
    (h : ∀ i ∈ ids, i < labels.length) :
    classifyLoop p labels ids =
      some ((selectedOver p labels ids).map Prod.fst,
            (selectedOver p labels ids).map Prod.snd) := by
  induction ids with
  | nil => rfl
  | cons i rest ih =>
    have hi : i < labels.length := h i (List.mem_cons_self i rest)
    have hrest := ih (fun j hj => h j (List.mem_cons_of_mem i hj))
    have hget : labels[i]? = some labels[i] := List.getElem?_eq_getElem hi
    simp only [classifyLoop, hget, hrest, selectedOver, List.filter_cons]
    by_cases hc : 20 < p[i]?.getD 0 * 100
    · simp [selectedOver, hc, hget]
    · simp [selectedOver, hc, hget]

/-- `top_k` is a permutation of the index range of `p`. -/
theorem topK_perm (p : List Rat) : (topK p).Perm (List.range p.length) :=
  ((argsortAsc p).reverse_perm).trans (List.perm_insertionSort _ _)

/-- Every index in `top_k` is an index of `p`. -/
theorem mem_topK_lt (p : List Rat) (i : Nat) (h : i ∈ topK p) :
    i < p.length := by
  have := (topK_perm p).mem_iff.mp h
  simpa [List.mem_range] using this

/-- Zipping the two projections of a pair list recovers the list. -/
theorem zipMapFstSnd {γ δ : Type} (l : List (γ × δ)) :
    (l.map Prod.fst).zip (l.map Prod.snd) = l := by
  induction l with
  | nil => rfl
  | cons a r ih => simp [ih]

/-- The selection over `top_k` is a permutation of the selection over the
plain index range. -/
theorem selectedOver_perm (p : List Rat) (labels : List PyStr) :
    (selectedOver p labels (topK p)).Perm (selectedPairs p labels) :=
  ((topK_perm p).filter _).map _

/-- `top_k` is sorted by non-increasing score. -/
theorem topK_sorted (p : List Rat) :
    (topK p).Pairwise (fun i j => p.getD j 0 ≤ p.getD i 0) := by
  have htot : IsTotal Nat (fun i j => p.getD i 0 ≤ p.getD j 0) :=
    ⟨fun a b => le_total _ _⟩
  have htrans : IsTrans Nat (fun i j => p.getD i 0 ≤ p.getD j 0) :=
    ⟨fun a b c hab hbc => le_trans hab hbc⟩
  have hs : List.Sorted (fun i j => p.getD i 0 ≤ p.getD j 0) (argsortAsc p) :=
    List.sorted_insertionSort _ _
  exact List.pairwise_reverse.mpr hs

/-- The scores column of the selection over `top_k` is non-increasing. -/
theorem scores_sorted (p : List Rat) (labels : List PyStr) :
    ((selectedOver p labels (topK p)).map Prod.snd).Pairwise
      (fun a b : Rat => b ≤ a) := by
  have h1 := (topK_sorted p).filter
    (fun j => decide (p.getD j 0 * 100 > 20))
  have h2 : (selectedOver p labels (topK p)).Pairwise
      (fun x y : PyStr × Rat => y.2 ≤ x.2) := by
    refine h1.map _ ?_
    intro a b hab
    exact mul_le_mul_of_nonneg_right hab (by norm_num)
  refine h2.map _ ?_
  intro a b hab
  exact hab

/-- `classify` succeeds and equals the spec-side selection over `top_k`
when the label list covers every index of `p`. -/
theorem classify_eq (p : List Rat) (labels : List PyStr)
    (hlen : p.length ≤ labels.length) :
    classify p labels =
      some ((selectedOver p labels (topK p)).map Prod.fst,
            (selectedOver p labels (topK p)).map Prod.snd) :=
  classifyLoop_eq p labels (topK p)
    (fun i hi => lt_of_lt_of_le (mem_topK_lt p i hi) hlen)

/-! ## Claim C2 — the rendered name/score pairs -/

/-- C2: the classifier output is a positionally paired list of
`(label, score)` pairs; the pairs are exactly (as a multiset) the indices
`j` of `p` with `p[j] * 100 > 20`, carrying `scores[i] = p[j] * 100` and
`name[i] = L[j]`, and the scores appear in non-increasing order. -/
theorem classify_rendered_pairs (p : List Rat) (labels : List PyStr)
    (hlen : p.length ≤ labels.length) :
    ∃ name scores, classify p labels = some (name, scores) ∧
      name.length = scores.length ∧
      (name.zip scores).Perm (selectedPairs p labels) ∧
      List.Sorted (fun a b : Rat => a ≥ b) scores := by
  refine ⟨_, _, classify_eq p labels hlen, by simp, ?_, ?_⟩
  · rw [zipMapFstSnd]
    exact selectedOver_perm p labels
  · exact scores_sorted p labels

/-- C2 witness: softmax `[0.3, 0.1, 0.6]` over three labels renders the
pairs for indices 2 and 0 in that order. -/
theorem classify_rendered_pairs_witness :
    ∃ name scores,
      classify [3/10, 1/10, 6/10]
        (["healthy".toList, "blight".toList, "rust".toList]) =
        some (name, scores) ∧
      name.length = scores.length ∧
      (name.zip scores).Perm
        (selectedPairs [3/10, 1/10, 6/10]
          (["healthy".toList, "blight".toList, "rust".toList])) ∧
      List.Sorted (fun a b : Rat => a ≥ b) scores :=
  classify_rendered_pairs [3/10, 1/10, 6/10]
    (["healthy".toList, "blight".toList, "rust".toList]) (by decide)

/-! ## Claim C1 — routes, saving, rendering -/

/-- C1: the app exposes exactly the routes `GET /` (rendering the upload
form) and `POST /upload`; when the request carries at least one file (and
the graph and label artifacts are present, with labels covering the
softmax vector), the handler saves each uploaded file under
`images/` + its own filename, runs inference on the (last) uploaded image,
and renders `complete.html` with the name/score pairs. -/
theorem upload_routes_and_success (env : Env) (lastFile : UploadedFile)
    (hl : env.files.getLast? = some lastFile)
    (lc : PyStr) (hlab : env.labelsFile = some lc)
    (gc : PyStr) (hg : env.graphFile = some gc)
    (hlen : (env.predict lastFile.content).length ≤ (labelList lc).length) :
    appRoutes = [("/", Method.GET), ("/upload", Method.POST)] ∧
    index = Response.html "upload.html" ∧
    (upload env).saved =
      env.files.map (fun f => (destinationFor env f, f.content)) ∧
    ∃ name scores,
      classify (env.predict lastFile.content) (labelList lc) =
        some (name, scores) ∧
      (upload env).response =
        .ok (.htmlWith "complete.html" name scores) := by
  have hcl := classify_eq (env.predict lastFile.content) (labelList lc) hlen
  refine ⟨rfl, rfl, ?_, _, _, hcl, ?_⟩
  · simp [upload, hl, hlab, hg, hcl]
  · simp [upload, hl, hlab, hg, hcl]

/-- C1 witness: the handler evaluated on `envDemo`. -/
theorem upload_routes_and_success_witness :
    appRoutes = [("/", Method.GET), ("/upload", Method.POST)] ∧
    index = Response.html "upload.html" ∧
    (upload envDemo).saved =
      envDemo.files.map (fun f => (destinationFor envDemo f, f.content)) ∧
    ∃ name scores,
      classify (envDemo.predict ("JPG".toList))
        (labelList ("healthy\nblight\n".toList)) = some (name, scores) ∧
      (upload envDemo).response =
        .ok (.htmlWith "complete.html" name scores) :=
  upload_routes_and_success envDemo ⟨"leaf.jpg".toList, "JPG".toList⟩ rfl
    ("healthy\nblight\n".toList) rfl ("GRAPH".toList) rfl (by decide)

/-! ## Claim C3 — failures are unhandled -/

/-- C3: there is no error-handling branch: an empty `"file"` field, a
missing `retrained_labels.txt` or a missing `retrained_graph.pb` makes the
handler end in an uncaught exception (the route's result is the error
itself — nothing in the repository intercepts it). -/
theorem upload_unhandled_failures (env : Env)
    (h : env.files = [] ∨ env.labelsFile = none ∨ env.graphFile = none) :
    ∃ e, (upload env).response = .error e := by
  rcases h with h | h | h
  · exact ⟨.nameError, by simp [upload, h]⟩
  · cases hl : env.files.getLast? with
    | none => exact ⟨.nameError, by simp [upload, hl]⟩
    | some lf =>
      exact ⟨.fileNotFound "retrained_labels.txt", by simp [upload, hl, h]⟩
  · cases hl : env.files.getLast? with
    | none => exact ⟨.nameError, by simp [upload, hl]⟩
    | some lf =>
      cases hlab : env.labelsFile with
      | none =>
        exact ⟨.fileNotFound "retrained_labels.txt",
          by simp [upload, hl, hlab]⟩
      | some lc =>
        exact ⟨.fileNotFound "retrained_graph.pb",
          by simp [upload, hl, hlab, h]⟩

/-- C3 witness: a request whose `"file"` field is empty errors out. -/
theorem upload_unhandled_failures_witness :
    ∃ e, (upload (Env.mk ("/app".toList) true []
      (some ("healthy\n".toList)) (some ("G".toList))
      (fun _ => []))).response = .error e :=
  upload_unhandled_failures
    (Env.mk ("/app".toList) true [] (some ("healthy\n".toList))
      (some ("G".toList)) (fun _ => [])) (Or.inl rfl)

/-! ## Claim C7 — the label file is newline-delimited text -/

/-- Removing trailing whitespace leaves a whitespace-free-tailed prefix of
the original string, and what was removed is all whitespace. -/
theorem rstrip_decomposition (s : PyStr) :
    ∃ ws, s = rstrip s ++ ws ∧ (∀ c ∈ ws, pyIsSpace c = true) ∧
      ∀ c, (rstrip s).getLast? = some c → pyIsSpace c = false := by
  refine ⟨(s.reverse.takeWhile pyIsSpace).reverse, ?_, ?_, ?_⟩
  · have h : s.reverse.takeWhile pyIsSpace ++ s.reverse.dropWhile pyIsSpace
        = s.reverse := by simp
    have h2 := congrArg List.reverse h
    simp only [List.reverse_append, List.reverse_reverse] at h2
    exact h2.symm
  · intro c hc
    rw [List.mem_reverse] at hc
    exact List.mem_takeWhile_imp hc
  · intro c hc
    simp only [rstrip, List.getLast?_reverse] at hc
    have h := List.head?_dropWhile_not pyIsSpace s.reverse
    rw [hc] at h
    exact h

/-- C7: the label list has one entry per line of the file, in file order,
and each entry is its line with the trailing whitespace (newline included)
stripped: the line is the entry followed by whitespace only, and the entry
itself does not end in whitespace. -/
theorem labelList_per_line (content : PyStr) :
    (labelList content).length = (pyFileLines content).length ∧
    ∀ i, i < (pyFileLines content).length →
      ∃ ws, (pyFileLines content).getD i [] =
          (labelList content).getD i [] ++ ws ∧
        (∀ c ∈ ws, pyIsSpace c = true) ∧
        ∀ c, ((labelList content).getD i []).getLast? = some c →
          pyIsSpace c = false := by
  refine ⟨by simp [labelList], ?_⟩
  intro i hi
  have hmap : (labelList content).getD i [] =
      rstrip ((pyFileLines content).getD i []) := by
    simp [labelList, List.getD_eq_getElem?_getD, List.getElem?_map,
      List.getElem?_eq_getElem hi]
  rw [hmap]
  exact rstrip_decomposition ((pyFileLines content).getD i [])

/-- C7 witness: the first line of a two-line label file with a trailing
space. -/
theorem labelList_per_line_witness :
    ∃ ws, (pyFileLines ("ok \nrust\n".toList)).getD 0 [] =
        (labelList ("ok \nrust\n".toList)).getD 0 [] ++ ws ∧
      (∀ c ∈ ws, pyIsSpace c = true) ∧
      ∀ c, ((labelList ("ok \nrust\n".toList)).getD 0 []).getLast? = some c →
        pyIsSpace c = false :=
  (labelList_per_line ("ok \nrust\n".toList)).2 0 (by decide)
